import Mathlib

/-!
Shallow embedding of the `tower-breaker` crate (a circuit breaker middleware
for tower services) and proofs about it.

Embedded source files:
* `src/window_counter.rs`   — `WindowedCounter`, a circular 8-bucket rolling counter;
* `src/policy/failure_rate.rs` — `SlidingFailureRate` / `Inner`, the budget-form policy;
* `src/service.rs`          — `CircuitBreaker::poll_ready` and `ResponseFuture::poll`.

Modelling conventions:
* `tokio::time::Instant` is a natural number of milliseconds (for the windowed
  counter, whose arithmetic is in `as_millis` units) or of abstract time units
  (for the breaker).  `Instant::now()` becomes an explicit `now` argument.
  `Duration` values are naturals in nanoseconds where the source divides a
  `Duration` (`window / NUM_BUCKETS`), and in the same unit as `now` elsewhere.
  `saturating_duration_since` / `duration_since` are truncated subtraction.
* `i64` / `isize` values are `Int` together with an explicit two's-complement
  wrap `wrap64` wherever the source's arithmetic wraps (atomic `fetch_add` /
  `fetch_sub` always wrap; plain `+` and `Iterator::sum` wrap in release
  builds and panic in debug builds — either way they do not saturate).
  `u128` divisions and the `as usize` truncation are modelled exactly.
* Code that can panic is embedded in `Option`: `none` is a panic.
* The atomics/mutex of `Inner` are flattened into one record: every claim
  proved about it concerns the sequential effect of a single operation.
-/

/-- Two's-complement wrap of an unbounded integer into the `i64`/`isize`
range `[-2^63, 2^63)` (64-bit target). -/
def wrap64 (x : Int) : Int :=
  (x + 9223372036854775808) % 18446744073709551616 - 9223372036854775808

/-- Rust `i64::saturating_add` / `isize::saturating_add`. -/
def satAdd64 (a b : Int) : Int :=
  max (-9223372036854775808) (min 9223372036854775807 (a + b))

/-- The integer fits in `i64`/`isize` (64-bit target). -/
def inI64 (x : Int) : Prop :=
  -9223372036854775808 ≤ x ∧ x ≤ 9223372036854775807

instance (x : Int) : Decidable (inI64 x) := by
  unfold inI64; infer_instance

/-- `src/window_counter.rs`: `NUM_BUCKETS`. -/
def NUM_BUCKETS : Nat := 8

/-- `src/window_counter.rs`: `struct WindowedCounter`.  `buckets` is the
fixed array of eight `i64` cells; `bucket_ms` is the `u128` millisecond
length of one bucket; `epoch` is the instant (in ms) the active bucket
started; `bucket` is the active index, kept in `Fin 8` because the source
only ever assigns values reduced `% NUM_BUCKETS`. -/
structure WindowedCounter where
  buckets : Fin 8 → Int
  bucket_ms : Nat
  epoch : Nat
  bucket : Fin 8

namespace WindowedCounter

/-- `WindowedCounter::new(window)`.  `window_ns` is the `Duration` in
nanoseconds; `window / NUM_BUCKETS as u32` divides the total nanosecond
count (exact for divisor 8 since 10^9 is divisible by 8), and
`.as_millis()` floor-divides by 10^6.  No validation is performed. -/
def new (window_ns : Nat) (now : Nat) : WindowedCounter :=
  { buckets := fun _ => 0
    bucket_ms := window_ns / 8 / 1000000
    epoch := now
    bucket := 0 }

/-- `WindowedCounter::advance`.  Returns `none` exactly when the source
panics: `elapsed_ms / self.bucket_ms` divides by zero whenever
`bucket_ms = 0` (the early return `elapsed_ms < bucket_ms` can never fire
then).  The `as usize` cast truncates the `u128` quotient to 64 bits before
the `.min(NUM_BUCKETS)` clamp.  When `skipped = 0` the two slice fills are
empty and `bucket + skipped` keeps the index, so the `if skipped > 0` guard
of the source is behaviourally the same as the unconditional update used
here. -/
def advance (c : WindowedCounter) (now : Nat) : Option WindowedCounter :=
  let elapsed_ms := now - c.epoch
  if elapsed_ms < c.bucket_ms then some c
  else if c.bucket_ms = 0 then none
  else
    let b1 : Fin 8 := ⟨(c.bucket.val + 1) % 8, Nat.mod_lt _ (by norm_num)⟩
    let skipped := min ((elapsed_ms / c.bucket_ms - 1) % 18446744073709551616) 8
    let skipped_right := min skipped (8 - b1.val)
    let skipped_left := skipped - skipped_right
    let b2 : Fin 8 := ⟨(b1.val + skipped) % 8, Nat.mod_lt _ (by norm_num)⟩
    let filled : Fin 8 → Int := fun j =>
      if (b1.val ≤ j.val ∧ j.val < b1.val + skipped_right) ∨ j.val < skipped_left
      then 0 else c.buckets j
    some { buckets := Function.update filled b2 0
           bucket_ms := c.bucket_ms
           epoch := now
           bucket := b2 }

/-- `WindowedCounter::add`: advance, then `*self.curr_bucket() += amount`
(plain `i64` addition: wraps in release, panics in debug; not saturating). -/
def add (c : WindowedCounter) (now : Nat) (amount : Int) : Option WindowedCounter :=
  (c.advance now).map fun c1 =>
    let v := wrap64 (c1.buckets c1.bucket + amount)
    { c1 with buckets := Function.update c1.buckets c1.bucket v }

/-- `WindowedCounter::total`: advance, then `self.buckets.iter().sum()` —
a fold of plain `i64` additions (wrapping in release, panicking in debug;
not saturating). -/
def total (c : WindowedCounter) (now : Nat) : Option Int :=
  (c.advance now).map fun c1 =>
    (List.ofFn c1.buckets).foldl (fun a x => wrap64 (a + x)) 0

/-- Modelled from the spec: `total()` as §4.1 describes it, "the saturating
sum of all buckets ... saturates at the integer type's bounds".  The
advance step is the source's; only the accumulation differs (saturating
instead of the source's plain sum).  Used to compare the claimed behaviour
with the code's. -/
def totalSaturating (c : WindowedCounter) (now : Nat) : Option Int :=
  (c.advance now).map fun c1 =>
    (List.ofFn c1.buckets).foldl satAdd64 0

/-- `WindowedCounter::clear`. -/
def clear (c : WindowedCounter) (now : Nat) : WindowedCounter :=
  { c with buckets := fun _ => 0, epoch := now }

/-- A sequence of `add` calls, each tagged with the instant it happens. -/
def applyAdds (c : WindowedCounter) (l : List (Nat × Int)) : Option WindowedCounter :=
  l.foldlM (fun c p => add c p.1 p.2) c

end WindowedCounter

/-- Counter state for the C4 counterexample: two buckets holding
`i64::MAX` and `1`, the rest `0`; `bucket_ms = 1000`, fresh epoch. -/
def c4state : WindowedCounter :=
  { buckets := fun j => if j.val = 0 then 9223372036854775807 else if j.val = 1 then 1 else 0
    bucket_ms := 1000
    epoch := 0
    bucket := 0 }

/-- Counter state for the C5 counterexample: every bucket holds `1`,
`bucket_ms = 1` ms. -/
def c5state : WindowedCounter :=
  { buckets := fun _ => 1
    bucket_ms := 1
    epoch := 0
    bucket := 0 }

/-- `src/policy/failure_rate.rs`: `NUM_WINDOWS`. -/
def NUM_WINDOWS : Nat := 10

namespace FailureRate

/-- `src/policy/failure_rate.rs`: `struct Inner` with the
`Mutex<Generation>` flattened into the `index`/`epoch` fields and the
atomics into plain integers (claims are about single sequential
operations).  `window` is the per-slot duration (`window / NUM_WINDOWS`
from the constructor), in the same time unit as `epoch`.  `index` lives in
`Fin 10`: the source only assigns indices reduced `% NUM_WINDOWS`. -/
structure Inner where
  index : Fin 10
  epoch : Nat
  allowable : Int
  window : Nat
  windows : Fin 10 → Int
  current : Int
  failure_value : Int
  success_value : Int

/-- The `while delta > self.window` loop of `Inner::expire`: zero the slot
at `i`, step `delta` down by one window and `i` up by one (circular),
repeat.  The source loop terminates in at most `delta` iterations whenever
`window > 0` (`delta` shrinks by `window ≥ 1` each pass), so running it
with `fuel = delta` is exact for every such state; when `window = 0` and
`delta > window` the source loop never terminates (no state reachable from
the constructor has `window = 0`: the constructor enforces a window of at
least one second, so each slot is at least 100 ms). -/
def expireLoop (window : Nat) : Nat → Nat → (Fin 10 → Int) → Fin 10 →
    ((Fin 10 → Int) × Fin 10)
  | 0, _, ws, i => (ws, i)
  | fuel + 1, delta, ws, i =>
    if window < delta then
      expireLoop window fuel (delta - window)
        (Function.update ws i 0) ⟨(i.val + 1) % 10, Nat.mod_lt _ (by norm_num)⟩
    else (ws, i)

/-- `Inner::expire`.  Computes `delta = now.saturating_duration_since(epoch)`;
returns unchanged while still inside the current slot; otherwise commits
`current` into `windows[index]` (the `swap(0)` zeroes `current`), zeroes
every slot passed over, and re-anchors the generation. -/
def Inner.expire (s : Inner) (now : Nat) : Inner :=
  let delta := now - s.epoch
  if delta < s.window then s
  else
    let ws := Function.update s.windows s.index s.current
    let i1 : Fin 10 := ⟨(s.index.val + 1) % 10, Nat.mod_lt _ (by norm_num)⟩
    let r := expireLoop s.window delta delta ws i1
    { s with windows := r.1, index := r.2, epoch := now, current := 0 }

/-- `Inner::record_failure`: `self.current.fetch_sub(self.failure_value)` —
a single wrapping atomic subtract, no expiry. -/
def Inner.record_failure (s : Inner) : Inner :=
  { s with current := wrap64 (s.current - s.failure_value) }

/-- `Inner::record_success`: `self.expire()` then
`self.current.fetch_add(self.success_value)` (wrapping atomic add). -/
def Inner.record_success (s : Inner) (now : Nat) : Inner :=
  let e := s.expire now
  { e with current := wrap64 (e.current + s.success_value) }

/-- `Inner::sum`: `current.saturating_add(windowed_sum).saturating_add(allowable)`
where `windowed_sum` folds the window slots with `saturating_add` from 0. -/
def Inner.sum (s : Inner) : Int :=
  satAdd64 (satAdd64 s.current ((List.ofFn s.windows).foldl satAdd64 0)) s.allowable

/-- `<SlidingFailureRate as Policy>::is_punished` is `todo!("eliza")`:
it panics unconditionally and never returns a verdict. -/
def is_punished (_ : Inner) : Option Bool := none

/-- `<SlidingFailureRate as Policy>::reset` is `todo!("eliza")`: it panics
unconditionally; the would-be successor state is never produced. -/
def reset (_ : Inner) : Option Inner := none

/-- Modelled from the spec: the verdict §4.4 assigns to the budget form,
"punished iff `baseline_allowance + windowed_sum < 0`" — in the source's
terms, `Inner::sum() < 0` (`sum` already adds `allowable` into the
windowed total).  The implementation `is_punished` is missing
(`todo!`), so this completes it from the spec's words for comparison. -/
def specIsPunished (s : Inner) : Bool :=
  decide (Inner.sum s < 0)

/-- Modelled from the spec: `reset` as §4.4 describes it, "re-zero the
rolling counter; baseline allowance is a fixed construction-time constant
and is not reset".  The implementation `reset` is missing (`todo!`), so
this completes it from the spec's words for comparison. -/
def specReset (s : Inner) : Inner :=
  { s with current := 0, windows := fun _ => 0 }

/-- Validation performed by `SlidingFailureRate::new` (the three `assert!`
calls).  `window_ns` is the `Duration` argument in nanoseconds and
`failure_percent` the exact rational value of the (non-NaN) `f32`
argument: every `f32` is a dyadic rational and `0.0`/`1000.0` are exact,
so the `Range::contains` comparisons agree with the rational order.
Returns `false` exactly when an assert fires (construction panics):
`(Duration::from_secs(1)..Duration::from_secs(60)).contains(&window)` and
`(0.0..MAX_RETRY_PERCENT).contains(&failure_percent)` are half-open
ranges, and the third assert is `allowed_per_sec < i32::MAX as u32`. -/
def newChecksPass (window_ns : Nat) (allowed_per_sec : Nat) (failure_percent : ℚ) : Bool :=
  decide (1000000000 ≤ window_ns) && decide (window_ns < 60000000000)
    && decide (0 ≤ failure_percent) && decide (failure_percent < 1000)
    && decide (allowed_per_sec < 2147483647)

/-- The acceptance region stated by the claim and by the constructor's own
`# Panics` doc comment: window between 1 and 60 seconds inclusive,
`failure_percent` in the closed interval `[0, 1000]`, `allowed_per_sec`
up to and including `i32::MAX`. -/
def claimedChecksPass (window_ns : Nat) (allowed_per_sec : Nat) (failure_percent : ℚ) : Bool :=
  decide (1000000000 ≤ window_ns) && decide (window_ns ≤ 60000000000)
    && decide (0 ≤ failure_percent) && decide (failure_percent ≤ 1000)
    && decide (allowed_per_sec ≤ 2147483647)

end FailureRate

/-- Result of polling a future / a service readiness check. -/
inductive Poll (α : Type) where
  | ready : α → Poll α
  | pending : Poll α
deriving DecidableEq, Repr

namespace Breaker

/-- `src/service.rs`: the mutable state of `CircuitBreaker` — the
`tripped` flag and the deadline of the `tripped_until` sleep. -/
structure BreakerState where
  tripped : Bool
  trippedUntil : Nat
deriving DecidableEq, Repr

/-- `CircuitBreaker::poll_ready`, generic over the policy (modelled as a
state `p : σ` with its `is_punished` verdict and `reset` function) and
over the inner service's own readiness result `inner : Poll α`.  A tokio
sleep polls ready exactly when `now` has reached its deadline.  Returns
the admission result, the breaker state after the call, and the policy
state after the call (`reset p` exactly when the policy was punished). -/
def pollReady {σ α : Type} (isPunished : σ → Bool) (resetPolicy : σ → σ) (p : σ)
    (now tripFor : Nat) (inner : Poll α) (s : BreakerState) :
    Poll α × BreakerState × σ :=
  let s1 : BreakerState :=
    if isPunished p then { tripped := true, trippedUntil := now + tripFor } else s
  let p1 : σ := if isPunished p then resetPolicy p else p
  if s1.tripped then
    if s1.trippedUntil ≤ now then (inner, { s1 with tripped := false }, p1)
    else (Poll.pending, s1, p1)
  else (inner, s1, p1)

/-- `ResponseFuture::poll`, generic over the policy (its
`record_success` / `record_failure` as functions on a state `p : σ`) and
over the inner future's poll result (`Except ε τ` is Rust's
`Result<T, E>`).  Returns the poll result and the policy state after the
call. -/
def responsePoll {σ ε τ : Type} (recordSuccess recordFailure : σ → σ) (p : σ)
    (inner : Poll (Except ε τ)) : Poll (Except ε τ) × σ :=
  match inner with
  | Poll.ready (Except.ok res) => (Poll.ready (Except.ok res), recordSuccess p)
  | Poll.ready (Except.error err) => (Poll.ready (Except.error err), recordFailure p)
  | Poll.pending => (Poll.pending, p)

end Breaker

/-- The state of the freshly constructed budget-form policy
`SlidingFailureRate::new(Duration::from_secs(2), 1, 0.5)`:
`success_value = 1`, `failure_value = (1.0/0.5) as isize = 2`,
`allowable = 1 * 2 * 2 = 4`, slot duration `2 s / 10 = 200 ms`,
all counters zero. -/
def c1state : FailureRate.Inner :=
  { index := 0
    epoch := 0
    allowable := 4
    window := 200
    windows := fun _ => 0
    current := 0
    failure_value := 2
    success_value := 1 }

/-- A budget-form policy state with non-zero rolling counters, used to
exhibit what a reset should leave unchanged. -/
def c7state : FailureRate.Inner :=
  { index := 2
    epoch := 50
    allowable := 4
    window := 200
    windows := fun _ => 5
    current := -9
    failure_value := 2
    success_value := 1 }

/-- A windowed counter with `bucket_ms = 10` and every bucket holding 3,
used as the concrete input of the C5 witness. -/
def c5wstate : WindowedCounter :=
  { buckets := fun _ => 3
    bucket_ms := 10
    epoch := 0
    bucket := 0 }

/-- A budget-form policy state with slot duration 100 and a non-zero
accumulator, used as the concrete input of the C9 witness. -/
def c9wstate : FailureRate.Inner :=
  { index := 0
    epoch := 0
    allowable := 5
    window := 100
    windows := fun _ => 0
    current := 3
    failure_value := 2
    success_value := 1 }

/-- A windowed counter whose buckets hold a single value in bucket 0: the
shape every counter reachable from `new` by same-bucket `add`s has. -/
def mkC (B now0 : Nat) (s : Int) : WindowedCounter :=
  { buckets := Function.update (fun _ => 0) (0 : Fin 8) s
    bucket_ms := B
    epoch := now0
    bucket := 0 }

/-! ## Helper lemmas -/

theorem wrap64_wrap_add_left (a b : Int) : wrap64 (wrap64 a + b) = wrap64 (a + b) := by
  unfold wrap64
  omega

theorem wrap64_idem (a : Int) : wrap64 (wrap64 a) = wrap64 a := by
  have h := wrap64_wrap_add_left a 0
  simpa using h

theorem wrap64_eq_self {x : Int} (h : inI64 x) : wrap64 x = x := by
  unfold inI64 at h
  unfold wrap64
  omega

theorem foldl_wrap_add (l : List Int) : ∀ a : Int,
    l.foldl (fun x y => wrap64 (x + y)) (wrap64 a) = wrap64 (a + l.sum) := by
  induction l with
  | nil => intro a; simp
  | cons b t ih =>
    intro a
    simp only [List.foldl_cons, List.sum_cons]
    rw [wrap64_wrap_add_left, ih (a + b)]
    ring_nf

theorem foldl_wrap_add_zero (l : List Int) :
    l.foldl (fun x y => wrap64 (x + y)) 0 = wrap64 l.sum := by
  have h0 : (0 : Int) = wrap64 0 := by decide
  rw [h0, foldl_wrap_add]
  simp

theorem expireLoop_preserves (window : Nat) :
    ∀ (fuel delta : Nat) (ws : Fin 10 → Int) (i j : Fin 10),
      delta ≤ window * ((j.val + 10 - i.val) % 10) + window →
      (FailureRate.expireLoop window fuel delta ws i).1 j = ws j := by
  intro fuel
  induction fuel with
  | zero => intro delta ws i j _; rfl
  | succ n ih =>
    intro delta ws i j hd
    rw [FailureRate.expireLoop]
    by_cases hlt : window < delta
    · rw [if_pos hlt]
      have hi : i.val < 10 := i.isLt
      have hj : j.val < 10 := j.isLt
      have hdist : 1 ≤ (j.val + 10 - i.val) % 10 := by
        by_contra hz
        have hz0 : (j.val + 10 - i.val) % 10 = 0 := by omega
        rw [hz0, Nat.mul_zero] at hd
        omega
      have hne : j ≠ i := by
        intro he
        subst he
        simp only [Nat.add_sub_cancel_left] at hdist
        omega
      have hstep : (j.val + 10 - ((i.val + 1) % 10)) % 10
          = (j.val + 10 - i.val) % 10 - 1 := by omega
      have hexp : window * ((j.val + 10 - i.val) % 10)
          = window * ((j.val + 10 - i.val) % 10 - 1) + window := by
        conv_lhs => rw [← Nat.sub_add_cancel hdist]
        rw [Nat.mul_add, Nat.mul_one]
      rw [ih (delta - window) (Function.update ws i 0)
        ⟨(i.val + 1) % 10, Nat.mod_lt _ (by norm_num)⟩ j
        (by rw [hstep]; rw [hexp] at hd; omega)]
      exact Function.update_noteq hne 0 ws
    · rw [if_neg hlt]

theorem advance_eq_none_iff (c : WindowedCounter) (now : Nat) :
    WindowedCounter.advance c now = none ↔ c.bucket_ms = 0 := by
  unfold WindowedCounter.advance
  by_cases h1 : now - c.epoch < c.bucket_ms
  · simp only [h1, if_true, reduceCtorEq, false_iff]
    omega
  · by_cases h2 : c.bucket_ms = 0
    · simp [h1, h2]
    · simp [h1, h2]

theorem advance_bucket_ms (c : WindowedCounter) (now : Nat) (c1 : WindowedCounter)
    (h : WindowedCounter.advance c now = some c1) : c1.bucket_ms = c.bucket_ms := by
  unfold WindowedCounter.advance at h
  by_cases h1 : now - c.epoch < c.bucket_ms
  · rw [if_pos h1, Option.some.injEq] at h
    rw [← h]
  · rw [if_neg h1] at h
    by_cases h2 : c.bucket_ms = 0
    · rw [if_pos h2] at h
      cases h
    · rw [if_neg h2, Option.some.injEq] at h
      rw [← h]

/-! ## Claim theorems -/

/-- Claim C1.  The claim says the budget-form `is_punished()` returns
`baseline_allowance + windowed sum < 0` and in particular yields a boolean
verdict on every reachable state.  The code is `todo!("eliza")`: it panics
unconditionally (`none` in the embedding) and never returns a boolean
verdict — even on the freshly constructed state `c1state`, where the
spec-modelled verdict is `false`. -/
theorem c1_is_punished_unimplemented :
    FailureRate.is_punished c1state = none
      ∧ FailureRate.specIsPunished c1state = false
      ∧ ∀ s : FailureRate.Inner, FailureRate.is_punished s = none :=
  ⟨rfl, by decide, fun _ => rfl⟩

/-- Claim C3.  `SlidingFailureRate::new` uses half-open ranges
(`Duration::from_secs(1)..Duration::from_secs(60)`,
`0.0..MAX_RETRY_PERCENT`) and a strict `allowed_per_sec < i32::MAX`, so a
window of exactly 60 seconds — accepted by the claim and by the
constructor's own `# Panics` doc comment — makes construction panic:
the claimed acceptance region holds at (60 s, 0, 0.0) but the code's
checks fail there. -/
theorem c3_new_rejects_inclusive_bound :
    FailureRate.claimedChecksPass 60000000000 0 0 = true
      ∧ FailureRate.newChecksPass 60000000000 0 0 = false := by
  decide

/-- Claim C7.  The claim says the budget-form `reset()` re-zeroes the
rolling counters and leaves the construction-time constants alone.  The
code is `todo!("eliza")`: it panics unconditionally (`none` in the
embedding), never producing any successor state.  The spec-modelled
`specReset` exhibits what the claim demands on the concrete state
`c7state`: counters re-zeroed, `allowable`, `window` and the weights
untouched. -/
theorem c7_reset_unimplemented :
    (∀ s : FailureRate.Inner, FailureRate.reset s = none)
      ∧ (FailureRate.specReset c7state).current = 0
      ∧ (∀ j, (FailureRate.specReset c7state).windows j = 0)
      ∧ (FailureRate.specReset c7state).allowable = c7state.allowable
      ∧ (FailureRate.specReset c7state).window = c7state.window
      ∧ (FailureRate.specReset c7state).failure_value = c7state.failure_value
      ∧ (FailureRate.specReset c7state).success_value = c7state.success_value :=
  ⟨fun _ => rfl, rfl, fun _ => rfl, rfl, rfl, rfl, rfl⟩

/-- Claim C8.  `ResponseFuture::poll` forwards the inner future's outcome
unchanged — the poll result is exactly the inner result in every case —
and records it on the policy: `record_success` on an `Ok` value,
`record_failure` on an `Err` value, nothing while pending. -/
theorem c8_response_forwarded_unchanged {σ ε τ : Type}
    (rs rf : σ → σ) (p : σ) (inner : Poll (Except ε τ)) :
    (Breaker.responsePoll rs rf p inner).1 = inner
      ∧ (∀ r, inner = Poll.ready (Except.ok r) →
          (Breaker.responsePoll rs rf p inner).2 = rs p)
      ∧ (∀ e, inner = Poll.ready (Except.error e) →
          (Breaker.responsePoll rs rf p inner).2 = rf p)
      ∧ (inner = Poll.pending → (Breaker.responsePoll rs rf p inner).2 = p) := by
  rcases inner with r | _
  · rcases r with r | e <;>
      simp [Breaker.responsePoll]
  · simp [Breaker.responsePoll]

/-- Witness for C8 at concrete inputs: a successful inner result is
forwarded as-is and one success is recorded; a pending inner poll leaves
the policy untouched. -/
theorem c8_witness :
    (Breaker.responsePoll (fun n : Nat => n + 1) (fun n => n + 100) 0
        (Poll.ready (Except.ok (42 : Nat)) : Poll (Except String Nat))).1
      = Poll.ready (Except.ok 42)
      ∧ (Breaker.responsePoll (fun n : Nat => n + 1) (fun n => n + 100) 0
          (Poll.ready (Except.ok (42 : Nat)) : Poll (Except String Nat))).2 = 1
      ∧ (Breaker.responsePoll (fun n : Nat => n + 1) (fun n => n + 100) 7
          (Poll.pending : Poll (Except String Nat))).2 = 7 := by
  refine ⟨(c8_response_forwarded_unchanged _ _ _ _).1, ?_, ?_⟩
  · exact (c8_response_forwarded_unchanged _ _ _ _).2.1 42 rfl
  · exact (c8_response_forwarded_unchanged _ _ _ _).2.2.2 rfl

/-- Claim C2.  At every `poll_ready`: a punished policy verdict —
regardless of current state — re-arms the trip deadline to
`now + trip_for` and resets the policy; while tripped with `now` before
the deadline the call returns `Pending` (admission refused); once `now`
reaches the deadline the breaker un-trips and returns the inner service's
own readiness result unchanged.  (With `trip_for = 0` the freshly armed
sleep is already elapsed, so the breaker un-trips within the same call.) -/
theorem c2_poll_ready_state_machine {σ α : Type}
    (isP : σ → Bool) (rst : σ → σ) (p : σ) (now tripFor : Nat)
    (inner : Poll α) (s : Breaker.BreakerState) :
    (isP p = true →
      (Breaker.pollReady isP rst p now tripFor inner s).2.2 = rst p
        ∧ (Breaker.pollReady isP rst p now tripFor inner s).2.1.trippedUntil = now + tripFor
        ∧ (0 < tripFor →
            (Breaker.pollReady isP rst p now tripFor inner s).1 = Poll.pending
              ∧ (Breaker.pollReady isP rst p now tripFor inner s).2.1.tripped = true)
        ∧ (tripFor = 0 →
            (Breaker.pollReady isP rst p now tripFor inner s).1 = inner
              ∧ (Breaker.pollReady isP rst p now tripFor inner s).2.1.tripped = false))
      ∧ (isP p = false →
        (Breaker.pollReady isP rst p now tripFor inner s).2.2 = p
          ∧ (s.tripped = true → now < s.trippedUntil →
              (Breaker.pollReady isP rst p now tripFor inner s).1 = Poll.pending
                ∧ (Breaker.pollReady isP rst p now tripFor inner s).2.1 = s)
          ∧ (s.tripped = true → s.trippedUntil ≤ now →
              (Breaker.pollReady isP rst p now tripFor inner s).1 = inner
                ∧ (Breaker.pollReady isP rst p now tripFor inner s).2.1.tripped = false
                ∧ (Breaker.pollReady isP rst p now tripFor inner s).2.1.trippedUntil
                    = s.trippedUntil)
          ∧ (s.tripped = false →
              (Breaker.pollReady isP rst p now tripFor inner s).1 = inner
                ∧ (Breaker.pollReady isP rst p now tripFor inner s).2.1 = s)) := by
  constructor
  · intro hP
    by_cases h0 : now + tripFor ≤ now
    · have ht : tripFor = 0 := by omega
      refine ⟨?_, ?_, fun hcontra => absurd ht (by omega), fun _ => ⟨?_, ?_⟩⟩ <;>
        simp [Breaker.pollReady, hP, h0]
    · have ht : 0 < tripFor := by omega
      refine ⟨?_, ?_, fun _ => ⟨?_, ?_⟩, fun hcontra => absurd hcontra (by omega)⟩ <;>
        simp [Breaker.pollReady, hP, h0]
  · intro hP
    refine ⟨?_, fun h hc => ?_, fun h hc => ?_, fun h => ?_⟩
    · by_cases hs : s.tripped <;> by_cases h0 : s.trippedUntil ≤ now <;>
        simp [Breaker.pollReady, hP, hs, h0]
    · have h0 : ¬ s.trippedUntil ≤ now := by omega
      refine ⟨?_, ?_⟩ <;> simp [Breaker.pollReady, hP, h, h0]
    · refine ⟨?_, ?_, ?_⟩ <;> simp [Breaker.pollReady, hP, h, hc]
    · refine ⟨?_, ?_⟩ <;> simp [Breaker.pollReady, hP, h]

/-- Witness for C2: with a punished policy (`isP` constantly true) and
`trip_for = 5` at `now = 0`, the call refuses admission, arms the deadline
at 5 and resets the policy state to 0; with an unpunished policy and an
already-tripped state whose deadline has passed, the call un-trips and
returns the inner readiness result unchanged. -/
theorem c2_witness :
    (Breaker.pollReady (fun _ : Nat => true) (fun _ => 0) 3 0 5
        (Poll.ready (7 : Nat)) ⟨false, 0⟩).1 = Poll.pending
      ∧ (Breaker.pollReady (fun _ : Nat => true) (fun _ => 0) 3 0 5
          (Poll.ready (7 : Nat)) ⟨false, 0⟩).2.1.trippedUntil = 5
      ∧ (Breaker.pollReady (fun _ : Nat => true) (fun _ => 0) 3 0 5
          (Poll.ready (7 : Nat)) ⟨false, 0⟩).2.2 = 0
      ∧ (Breaker.pollReady (fun _ : Nat => false) (fun _ => 0) 3 9 5
          (Poll.ready (7 : Nat)) ⟨true, 5⟩).1 = Poll.ready 7
      ∧ (Breaker.pollReady (fun _ : Nat => false) (fun _ => 0) 3 9 5
          (Poll.ready (7 : Nat)) ⟨true, 5⟩).2.1.tripped = false := by
  have h1 := c2_poll_ready_state_machine (fun _ : Nat => true) (fun _ => 0) 3 0 5
    (Poll.ready (7 : Nat)) ⟨false, 0⟩
  have h2 := c2_poll_ready_state_machine (fun _ : Nat => false) (fun _ => 0) 3 9 5
    (Poll.ready (7 : Nat)) ⟨true, 5⟩
  refine ⟨((h1.1 rfl).2.2.1 (by decide)).1, (h1.1 rfl).2.1, (h1.1 rfl).1, ?_, ?_⟩
  · exact ((h2.2 rfl).2.2.1 rfl (by decide)).1
  · exact ((h2.2 rfl).2.2.1 rfl (by decide)).2.1

/-- Claim C9.  `record_failure` is a single wrapping subtract of
`failure_value` from the `current` accumulator: the window slots, the
generation index and the generation epoch are untouched (no expiry on the
failure path).  `record_success` first runs expiry and then adds
`success_value`: while still inside the current slot this only bumps
`current`; once at least one slot duration has elapsed, the accumulator is
committed into the slot at the old generation index (visible there as long
as the jump does not wrap the whole ring, i.e. `delta ≤ 10 * window`), the
generation is re-anchored at `now`, and the new accumulator holds exactly
the freshly added `success_value`. -/
theorem c9_record_success_expires_record_failure_does_not
    (s : FailureRate.Inner) (now : Nat) :
    ((FailureRate.Inner.record_failure s).current
        = wrap64 (s.current - s.failure_value)
      ∧ (FailureRate.Inner.record_failure s).windows = s.windows
      ∧ (FailureRate.Inner.record_failure s).index = s.index
      ∧ (FailureRate.Inner.record_failure s).epoch = s.epoch)
    ∧ (now - s.epoch < s.window →
        FailureRate.Inner.record_success s now
          = { s with current := wrap64 (s.current + s.success_value) })
    ∧ (0 < s.window → s.window ≤ now - s.epoch →
        ((FailureRate.Inner.record_success s now).current = wrap64 s.success_value
          ∧ (FailureRate.Inner.record_success s now).epoch = now
          ∧ (now - s.epoch ≤ 10 * s.window →
              (FailureRate.Inner.record_success s now).windows s.index = s.current))) := by
  refine ⟨⟨rfl, rfl, rfl, rfl⟩, ?_, ?_⟩
  · intro h
    simp only [FailureRate.Inner.record_success, FailureRate.Inner.expire, if_pos h]
  · intro hw hge
    have hni : ¬ (now - s.epoch < s.window) := by omega
    refine ⟨?_, ?_, ?_⟩
    · simp only [FailureRate.Inner.record_success, FailureRate.Inner.expire,
        if_neg hni, zero_add]
    · simp only [FailureRate.Inner.record_success, FailureRate.Inner.expire,
        if_neg hni]
    · intro h10
      simp only [FailureRate.Inner.record_success, FailureRate.Inner.expire,
        if_neg hni]
      have hdist : (s.index.val + 10 - ((s.index.val + 1) % 10)) % 10 = 9 := by
        have := s.index.isLt
        omega
      rw [expireLoop_preserves s.window (now - s.epoch) (now - s.epoch)
        (Function.update s.windows s.index s.current)
        ⟨(s.index.val + 1) % 10, Nat.mod_lt _ (by norm_num)⟩ s.index
        (by rw [hdist]; omega)]
      exact Function.update_same s.index s.current s.windows

/-- Witness for C9: on the concrete state `c9wstate` (slot duration 100,
accumulator 3) a `record_success` at `now = 50` (inside the slot) only
bumps the accumulator, while at `now = 150` it commits 3 into slot 0,
re-anchors the epoch and starts the accumulator afresh at
`success_value = 1`; `record_failure` subtracts 2 and moves nothing
else. -/
theorem c9_witness :
    (FailureRate.Inner.record_failure c9wstate).current = wrap64 (3 - 2)
      ∧ (FailureRate.Inner.record_failure c9wstate).windows = c9wstate.windows
      ∧ FailureRate.Inner.record_success c9wstate 50
          = { c9wstate with current := wrap64 (3 + 1) }
      ∧ (FailureRate.Inner.record_success c9wstate 150).current = wrap64 1
      ∧ (FailureRate.Inner.record_success c9wstate 150).epoch = 150
      ∧ (FailureRate.Inner.record_success c9wstate 150).windows 0 = 3 := by
  have h50 := c9_record_success_expires_record_failure_does_not c9wstate 50
  have h150 := c9_record_success_expires_record_failure_does_not c9wstate 150
  refine ⟨h50.1.1, h50.1.2.1, h50.2.1 (by decide), ?_, ?_, ?_⟩
  · exact (h150.2.2 (by decide) (by decide)).1
  · exact (h150.2.2 (by decide) (by decide)).2.1
  · exact (h150.2.2 (by decide) (by decide)).2.2 (by decide)

/-- Claim C10.  `WindowedCounter::new` validates nothing.  The per-bucket
duration `(window / 8).as_millis()` is zero exactly when the window is
shorter than 8 ms (8 000 000 ns), and `advance` — hence every `add` and
`total`, which call it first — panics with a division by zero exactly when
`bucket_ms = 0` (the `elapsed_ms < bucket_ms` early return can never fire
then).  `add` and `advance` never change `bucket_ms`, so the panic
behaviour of a counter is fixed at construction: windows of at least 8 ms
never panic in the advance arithmetic, shorter windows panic on every
`add`/`total`. -/
theorem c10_new_unvalidated_div_zero
    (window now0 : Nat) (c : WindowedCounter) (now : Nat) (amount : Int) :
    ((WindowedCounter.new window now0).bucket_ms = 0 ↔ window < 8000000)
      ∧ (WindowedCounter.advance c now = none ↔ c.bucket_ms = 0)
      ∧ (WindowedCounter.add c now amount = none ↔ c.bucket_ms = 0)
      ∧ (WindowedCounter.total c now = none ↔ c.bucket_ms = 0)
      ∧ (∀ c1, WindowedCounter.add c now amount = some c1 →
          c1.bucket_ms = c.bucket_ms)
      ∧ (∀ c1, WindowedCounter.advance c now = some c1 →
          c1.bucket_ms = c.bucket_ms) := by
  refine ⟨?_, advance_eq_none_iff c now, ?_, ?_, ?_, advance_bucket_ms c now⟩
  · show window / 8 / 1000000 = 0 ↔ window < 8000000
    omega
  · rw [WindowedCounter.add, Option.map_eq_none']
    exact advance_eq_none_iff c now
  · rw [WindowedCounter.total, Option.map_eq_none']
    exact advance_eq_none_iff c now
  · intro c1 h
    rw [WindowedCounter.add] at h
    rcases Option.map_eq_some'.mp h with ⟨c2, hc2, hmap⟩
    rw [← hmap]
    exact advance_bucket_ms c now c2 hc2

/-- Witness for C10: a 7 999 999 ns window yields `bucket_ms = 0` and a
panicking `total`; an 8 000 000 ns window yields a positive `bucket_ms`
and a non-panicking `total`. -/
theorem c10_witness :
    WindowedCounter.total (WindowedCounter.new 7999999 0) 5 = none
      ∧ (WindowedCounter.total (WindowedCounter.new 8000000 0) 5).isSome = true := by
  constructor
  · exact (c10_new_unvalidated_div_zero 7999999 0 (WindowedCounter.new 7999999 0)
      5 0).2.2.2.1.mpr (by decide)
  · rw [Option.isSome_iff_ne_none]
    intro hnone
    have h := (c10_new_unvalidated_div_zero 8000000 0 (WindowedCounter.new 8000000 0)
      5 0).2.2.2.1.mp hnone
    exact absurd h (by decide)

/-- Claim C4, counterexample.  The claim says `total()` returns the
SATURATING sum of the buckets and never overflows.  The source sums with
plain `i64` addition (`self.buckets.iter().sum()`): on `c4state`, whose
buckets hold `i64::MAX` and `1`, the code's `total()` wraps to `i64::MIN`
(release; a debug build panics) while the saturating sum the claim
describes is `i64::MAX`. -/
theorem c4_counterexample :
    WindowedCounter.total c4state 0 = some (-9223372036854775808)
      ∧ WindowedCounter.totalSaturating c4state 0 = some 9223372036854775807 := by
  decide

/-- Claim C4, amended.  `total()` lazily advances and then returns the
plain `i64` sum of the buckets, i.e. the mathematical sum reduced by
two's-complement wrap-around; whenever that mathematical sum fits in
`i64` the result is exactly the sum.  It does not saturate. -/
theorem c4_total_is_wrapping_sum
    (c : WindowedCounter) (now : Nat) (c1 : WindowedCounter)
    (h : WindowedCounter.advance c now = some c1) :
    WindowedCounter.total c now = some (wrap64 ((List.ofFn c1.buckets).sum))
      ∧ (inI64 ((List.ofFn c1.buckets).sum) →
          WindowedCounter.total c now = some ((List.ofFn c1.buckets).sum)) := by
  constructor
  · rw [WindowedCounter.total, h, Option.map_some', foldl_wrap_add_zero]
  · intro hin
    rw [WindowedCounter.total, h, Option.map_some', foldl_wrap_add_zero,
      wrap64_eq_self hin]

/-- Witness for C4 (amended): on `c5state` (eight buckets of 1, no time
elapsed) the advance is a no-op and `total()` is exactly 8. -/
theorem c4_witness :
    WindowedCounter.total c5state 0 = some 8 := by
  have h := (c4_total_is_wrapping_sum c5state 0 c5state rfl).2 (by decide)
  exact h.trans (by decide)

/-- Claim C5, counterexample.  The claim says that after ANY jump of at
least the full window (8 bucket durations) the next `total()` is 0, the
skipped-bucket count being clamped to 8.  The clamp, however, happens
after the `u128` quotient is cast with `as usize`: on `c5state`
(`bucket_ms = 1`, all buckets 1) a jump of 2^64 + 1 bucket durations makes
`(elapsed_ms / bucket_ms - 1) as usize` truncate to 0, so no bucket is
zero-filled beyond the new active one and `total()` returns 7 instead of
0 — seven stale buckets leak back in. -/
theorem c5_counterexample :
    8 * c5state.bucket_ms ≤ 18446744073709551617 - c5state.epoch
      ∧ WindowedCounter.total c5state 18446744073709551617 = some 7 := by
  decide

/-- Claim C5, amended.  For every counter with a non-zero bucket duration,
if at least the full window (8 bucket durations) has elapsed since the
epoch AND the number of whole bucket durations elapsed is at most 2^64
(so that the `as usize` cast of the skipped count does not truncate —
every physically realisable jump on a 64-bit target satisfies this), the
next `total()` returns 0 and no stale bucket survives the wrap-around. -/
theorem c5_full_window_decay
    (c : WindowedCounter) (now : Nat)
    (h1 : 0 < c.bucket_ms)
    (h2 : 8 * c.bucket_ms ≤ now - c.epoch)
    (h3 : (now - c.epoch) / c.bucket_ms ≤ 18446744073709551616) :
    WindowedCounter.total c now = some 0 := by
  have hnotlt : ¬ (now - c.epoch < c.bucket_ms) := by omega
  have hbm0 : ¬ (c.bucket_ms = 0) := by omega
  have hq8 : 8 ≤ (now - c.epoch) / c.bucket_ms :=
    (Nat.le_div_iff_mul_le h1).mpr (by omega)
  have hmod : ((now - c.epoch) / c.bucket_ms - 1) % 18446744073709551616
      = (now - c.epoch) / c.bucket_ms - 1 := Nat.mod_eq_of_lt (by omega)
  simp only [WindowedCounter.total, WindowedCounter.advance, hnotlt, if_false,
    hbm0, hmod, Option.map_some']
  have key : ∀ (g : Fin 8 → Int), g = (fun _ => (0 : Int)) →
      some ((List.ofFn g).foldl (fun a x => wrap64 (a + x)) 0) = some 0 := by
    rintro g rfl
    decide
  apply key
  have hK7 : 7 ≤ min ((now - c.epoch) / c.bucket_ms - 1) 8 := by omega
  have hK8 : min ((now - c.epoch) / c.bucket_ms - 1) 8 ≤ 8 := by omega
  funext j
  have hb := c.bucket.isLt
  have hj := j.isLt
  simp only [Function.update_apply, Fin.val_mk]
  split
  · rfl
  · split
    · rfl
    · rename_i hne hcond
      have hnev : ¬ j.val
          = ((c.bucket.val + 1) % 8 + min ((now - c.epoch) / c.bucket_ms - 1) 8) % 8 :=
        fun hv => hne (Fin.ext hv)
      exfalso
      omega

/-- Witness for C5 (amended): on `c5wstate` (`bucket_ms = 10`, all eight
buckets 3) a jump to `now = 80` — exactly the full window — fully decays
the counter: `total()` is 0. -/
theorem c5_witness :
    WindowedCounter.total c5wstate 80 = some 0 :=
  c5_full_window_decay c5wstate 80 (by decide) (by decide) (by decide)

/-- Claim C6, counterexample.  The claim says `total()` returns exactly
`a1 + ... + ak` for adds within one bucket duration.  The additions are
plain `i64` arithmetic: adding `i64::MAX` and then `1` to a fresh counter
(window 8 s, bucket duration 1000 ms, both adds and the read at times
inside the first bucket) makes `total()` return `i64::MIN` (release
wrap-around; a debug build panics), not the exact sum `2^63`. -/
theorem c6_counterexample :
    (WindowedCounter.applyAdds (WindowedCounter.new 8000000000 0)
        [(0, 9223372036854775807), (0, 1)]).bind
      (fun c => WindowedCounter.total c 0) = some (-9223372036854775808) := by
  decide

theorem applyAdds_same_bucket (B now0 : Nat) :
    ∀ (l : List (Nat × Int)) (s : Int),
      (∀ p ∈ l, p.1 - now0 < B) →
      (∀ n, n < l.length + 1 → inI64 (s + ((l.take n).map Prod.snd).sum)) →
      WindowedCounter.applyAdds (mkC B now0 s) l
        = some (mkC B now0 (s + (l.map Prod.snd).sum)) := by
  intro l
  induction l with
  | nil =>
    intro s _ _
    simp [WindowedCounter.applyAdds, mkC]
  | cons hd tl ih =>
    intro s htime hsum
    have ht : hd.1 - now0 < B := htime hd (List.mem_cons_self hd tl)
    have hs1 : inI64 (s + hd.2) := by
      have h := hsum 1 (by simp)
      simpa using h
    have hadv : WindowedCounter.advance (mkC B now0 s) hd.1 = some (mkC B now0 s) := by
      simp only [WindowedCounter.advance, mkC]
      rw [if_pos ht]
    have hbk : Function.update
        (Function.update (fun _ => (0 : Int)) (0 : Fin 8) s) (0 : Fin 8)
        (wrap64 (Function.update (fun _ => (0 : Int)) (0 : Fin 8) s 0 + hd.2))
        = Function.update (fun _ => (0 : Int)) (0 : Fin 8) (s + hd.2) := by
      rw [Function.update_idem, Function.update_same, wrap64_eq_self hs1]
    have hstep : WindowedCounter.add (mkC B now0 s) hd.1 hd.2
        = some (mkC B now0 (s + hd.2)) := by
      rw [WindowedCounter.add, hadv, Option.map_some']
      simp only [mkC]
      rw [hbk]
    have htime2 : ∀ p ∈ tl, p.1 - now0 < B := fun p hp => htime p (List.mem_cons_of_mem hd hp)
    have hsum2 : ∀ n, n < tl.length + 1 → inI64 ((s + hd.2) + ((tl.take n).map Prod.snd).sum) := by
      intro n hn
      have h := hsum (n + 1) (by simpa using hn)
      simpa [add_assoc] using h
    calc WindowedCounter.applyAdds (mkC B now0 s) (hd :: tl)
        = WindowedCounter.applyAdds (mkC B now0 (s + hd.2)) tl := by
          simp only [WindowedCounter.applyAdds, List.foldlM_cons, hstep]
          rfl
      _ = some (mkC B now0 ((s + hd.2) + (tl.map Prod.snd).sum)) :=
          ih (s + hd.2) htime2 hsum2
      _ = some (mkC B now0 (s + ((hd :: tl).map Prod.snd).sum)) := by
          simp [add_assoc]

/-- Claim C6, amended.  For every sequence of `add(a1) ... add(ak)` on a
fresh counter, all within one bucket duration of the epoch, a `total()`
still within that bucket duration returns exactly `a1 + ... + ak` —
provided every prefix sum fits in `i64` (the additions are plain `i64`
arithmetic, so an overflowing prefix wraps in release builds and panics in
debug builds).  No premature expiry removes any added amount. -/
theorem c6_exact_sum_within_bucket
    (window now0 : Nat) (l : List (Nat × Int)) (t : Nat)
    (htime : ∀ p ∈ l, p.1 - now0 < (WindowedCounter.new window now0).bucket_ms)
    (ht : t - now0 < (WindowedCounter.new window now0).bucket_ms)
    (hsum : ∀ n, n < l.length + 1 → inI64 (((l.take n).map Prod.snd).sum)) :
    (WindowedCounter.applyAdds (WindowedCounter.new window now0) l).bind
        (fun c => WindowedCounter.total c t) = some ((l.map Prod.snd).sum) := by
  have hbk0 : Function.update (fun _ => (0 : Int)) (0 : Fin 8) 0 = fun _ => (0 : Int) := by
    funext j
    simp [Function.update_apply]
  have hnew : WindowedCounter.new window now0
      = mkC ((WindowedCounter.new window now0).bucket_ms) now0 0 := by
    rw [mkC, hbk0]
    rfl
  rw [hnew, applyAdds_same_bucket _ now0 l 0
    (by simpa using htime)
    (by intro n hn; simpa using hsum n hn)]
  have hadv : WindowedCounter.advance
      (mkC ((WindowedCounter.new window now0).bucket_ms) now0
        (0 + (l.map Prod.snd).sum)) t
      = some (mkC ((WindowedCounter.new window now0).bucket_ms) now0
          (0 + (l.map Prod.snd).sum)) := by
    simp only [WindowedCounter.advance, mkC]
    rw [if_pos ht]
  have hin : inI64 ((l.map Prod.snd).sum) := by
    have h := hsum l.length (by omega)
    simpa [List.take_length] using h
  rw [Option.some_bind, WindowedCounter.total, hadv,
    Option.map_some', zero_add]
  rw [show (mkC ((WindowedCounter.new window now0).bucket_ms) now0
      ((l.map Prod.snd).sum)).buckets
    = Function.update (fun _ => (0 : Int)) (0 : Fin 8) ((l.map Prod.snd).sum) from rfl]
  rw [foldl_wrap_add_zero, List.sum_ofFn]
  rw [Finset.sum_update_of_mem (Finset.mem_univ (0 : Fin 8))]
  simp only [Finset.sum_const_zero, add_zero]
  rw [wrap64_eq_self hin]

/-- Witness for C6 (amended): adds of 7 and −2 at 5 ms and 10 ms on a
fresh 8 s counter, read at 500 ms (all within the 1000 ms bucket), total
exactly 5. -/
theorem c6_witness :
    (WindowedCounter.applyAdds (WindowedCounter.new 8000000000 0) [(5, 7), (10, -2)]).bind
        (fun c => WindowedCounter.total c 500) = some 5 := by
  have h := c6_exact_sum_within_bucket 8000000000 0 [(5, 7), (10, -2)] 500
    (by decide) (by decide) (by decide)
  exact h.trans (by decide)
